import Mathlib

/-!
Shallow embedding of `src/video_info.rs` (the ytdl repository's metadata
extraction pipeline) and proofs about it.

Modelling conventions:
* Rust strings are Lean `String`s; character-level operations work on
  `String.data` (a `List Char`), which is adequate for the ASCII data the
  pipeline handles.
* `HashMap<String, String>` built by `collect` from a pair iterator has
  last-write-wins semantics; it is modelled as the underlying pair list with
  a lookup (`mapGet`) that returns the value of the last matching pair.
* Effectful steps (the HTTP fetch) are inputs of the embedded functions: the
  response is passed in as data, and identifier resolution returns a
  `Resolution` value recording which continuation the source code takes.
* Fallible functions return `Except String` mirroring `Result<_, Box<dyn Error>>`.
-/

/-- Hex digit value of a character, as used by percent-decoding. -/
def hexVal (c : Char) : Option Nat :=
  if '0' ≤ c ∧ c ≤ '9' then some (c.toNat - 48)
  else if 'a' ≤ c ∧ c ≤ 'f' then some (c.toNat - 87)
  else if 'A' ≤ c ∧ c ≤ 'F' then some (c.toNat - 55)
  else none

/-- Percent-decoding over characters, mirroring `url::percent_encoding::percent_decode`:
a `%` followed by two hex digits decodes to that byte; an invalid escape is
passed through unchanged. -/
def percentDecodeChars : List Char → List Char
  | [] => []
  | '%' :: h1 :: h2 :: rest =>
    match hexVal h1, hexVal h2 with
    | some a, some b => Char.ofNat (16 * a + b) :: percentDecodeChars rest
    | _, _ => '%' :: percentDecodeChars (h1 :: h2 :: rest)
  | c :: rest => c :: percentDecodeChars rest

/-- String-level percent-decoding (no `+`-for-space translation), as used by
`get_download_url`. -/
def percentDecodeStr (s : String) : String :=
  String.mk (percentDecodeChars s.data)

/-- Decoding of one `application/x-www-form-urlencoded` token: `+` becomes a
space, then percent-escapes are decoded. Used by `form_urlencoded::parse`. -/
def formDecodeChars (l : List Char) : List Char :=
  percentDecodeChars (l.map (fun c => if c == '+' then ' ' else c))

/-- Split a character list on every occurrence of `c` (Rust `str::split` with a
single-character pattern: the empty input yields one empty piece). -/
def splitOnChar (c : Char) : List Char → List (List Char)
  | [] => [[]]
  | x :: xs =>
    match splitOnChar c xs with
    | [] => if x == c then [[], []] else [[x]]
    | h :: t => if x == c then [] :: h :: t else (x :: h) :: t

/-- Split a character list at the first occurrence of `c`: returns the part
before it, and the part after it when `c` occurs (Rust `splitn(2, c)`). -/
def breakOnChar (c : Char) : List Char → List Char × Option (List Char)
  | [] => ([], none)
  | x :: xs =>
    if x == c then ([], some xs)
    else
      match breakOnChar c xs with
      | (pre, rest) => (x :: pre, rest)

/-- Rust `str::split(",")` collected to a list of strings. -/
def splitCommas (s : String) : List String :=
  (splitOnChar ',' s.data).map (fun l => String.mk l)

/-- `form_urlencoded::parse` (source `parse_query`, lines 179-184): split the
blob on `&`, skip empty pieces, split each piece at the first `=` (missing `=`
gives an empty value), and form-decode key and value. The source collects the
pairs into a `HashMap`; we keep the pair list and give lookups last-write-wins
semantics through `mapGet`. -/
def parse_query (s : String) : List (String × String) :=
  ((splitOnChar '&' s.data).filter (fun p => !p.isEmpty)).map (fun piece =>
    match breakOnChar '=' piece with
    | (k, v) => (String.mk (formDecodeChars k), String.mk (formDecodeChars (v.getD []))))

/-- Lookup in a pair list with `HashMap`-collect semantics: the value of the
last pair whose key matches wins. -/
def mapGet (l : List (String × String)) (k : String) : Option String :=
  match l with
  | [] => none
  | (k1, v1) :: rest =>
    match mapGet rest k with
    | some v => some v
    | none => if k1 == k then some v1 else none

/-- Boolean prefix test over characters (Rust `str::starts_with`). -/
def startsWithChars : List Char → List Char → Bool
  | [], _ => true
  | _ :: _, [] => false
  | a :: as, b :: bs => a == b && startsWithChars as bs

/-- Rust `i32::from_str`: optional sign, at least one digit, all digits, value
within the `i32` range. -/
def parseI32 (s : String) : Option Int :=
  let p : Int × List Char :=
    match s.data with
    | '+' :: rest => (1, rest)
    | '-' :: rest => (-1, rest)
    | cs => (1, cs)
  match p with
  | (sgn, ds) =>
    if ds.isEmpty then none
    else if ds.all Char.isDigit then
      let n : Nat := ds.foldl (fun a c => 10 * a + (c.toNat - 48)) 0
      let v : Int := sgn * (n : Int)
      if -(2 ^ 31) ≤ v ∧ v < 2 ^ 31 then some v else none
    else none

/-- The parsed-URL view the source uses: `scheme`, `host_str()`, `path()` and
the raw query string (fed to `query_pairs()`). -/
structure Url where
  scheme : String
  host : Option String
  path : String
  query : Option String
deriving Repr, DecidableEq

/-- Split a character list at the first occurrence of the scheme separator
`://`, returning the characters before and after it. -/
def schemeBreak : List Char → Option (List Char × List Char)
  | [] => none
  | ':' :: '/' :: '/' :: rest => some ([], rest)
  | c :: cs => (schemeBreak cs).map (fun p => (c :: p.1, p.2))

/-- Model of `url::Url::parse` for the absolute `scheme://host/path?query`
shapes this pipeline handles: a nonempty alphabetic scheme before `://`, a
nonempty host, a path that defaults to `/`, and an optional query after the
first `?`. Anything else (in particular a bare identifier with no `://`)
fails to parse, which is what routes bare identifiers to the fallback arm of
`get_video_info`. -/
def Url.parse (s : String) : Option Url :=
  match schemeBreak s.data with
  | none => none
  | some (sch, rest) =>
    if sch.isEmpty then none
    else if !(sch.all Char.isAlpha) then none
    else
      match breakOnChar '?' rest with
      | (beforeQ, q) =>
        match breakOnChar '/' beforeQ with
        | (hostCs, pathRest) =>
          if hostCs.isEmpty then none
          else
            some { scheme := String.mk sch
                   host := some (String.mk hostCs)
                   path := match pathRest with
                     | none => "/"
                     | some p => String.mk ('/' :: p)
                   query := q.map (fun l => String.mk l) }

/-- One downloadable rendition (struct `Format` of the external `format`
module): static catalog fields plus the dynamic attribute map `meta`. `meta`
is a `HashMap<String, String>` in the source; it is modelled as a pair list
whose lookups (`mapGet`) take the last write. -/
structure Format where
  itag : Int
  resolution : String
  extension : String
  meta : List (String × String)
deriving Repr, DecidableEq

/-- Modelled from the spec: `Format::new` lives in the `format` module, which
is not part of the provided sources. Per the spec, the Format Catalog is an
external lookup keyed by itag that either returns the static descriptor
(resolution, extension) or reports the itag unknown; a fresh `Format` carries
the static fields and an attribute map that does not yet hold any entry data.
The catalog contents stay an explicit parameter `catalog`. -/
def Format.new (catalog : Int → Option (String × String)) (i : Int) : Option Format :=
  (catalog i).map (fun d => { itag := i, resolution := d.1, extension := d.2, meta := [] })

/-- The `VideoInfo` struct (source lines 13-22). `duration` is an `i32`,
modelled as `Int`. -/
structure VideoInfo where
  title : String
  id : String
  describe : String
  formats : List Format
  keywords : List String
  author : String
  duration : Int
deriving Repr, DecidableEq

/-- An HTTP response as seen by `get_video_info_from_html`: the transport is
an external collaborator, so its result is an input of the embedding. Status
200 is `StatusCode::Ok`. -/
structure HttpResponse where
  status : Nat
  body : String
deriving Repr, DecidableEq

/-- Outcome of identifier resolution: which continuation the source takes.
`fetch id` means control passes to `get_video_info_from_html` with that
identifier; `failure msg` means the function produces the error `msg`;
`noValue` records the source path that reaches the end of a
`Result`-returning function with no return expression at all
(`get_video_info_from_short_url`, lines 70-77). -/
inductive Resolution where
  | fetch (id : String)
  | failure (msg : String)
  | noValue
deriving Repr, DecidableEq

/-- Rust `str::trim_start_matches("/")`: drop every leading slash. -/
def trimStartSlashes (s : String) : String :=
  String.mk (s.data.dropWhile (fun c => c == '/'))

/-- `get_video_info_from_short_url` (source lines 70-77). -/
def get_video_info_from_short_url (u : Url) : Resolution :=
  let path := trimStartSlashes u.path
  if 0 < path.data.length then
    Resolution.fetch path
  else
    -- the source's empty-path branch falls off the end of the function with
    -- no return expression and no error value
    Resolution.noValue

/-- `get_video_info_from_url` (source lines 58-68): look `v` up among the
query pairs collected into a `HashMap`; the tail expression builds
`SimpleError::new("invalid youtube url, no video id")`, the function's error
result. -/
def get_video_info_from_url (u : Url) : Resolution :=
  match mapGet (parse_query (u.query.getD "")) "v" with
  | some vid => Resolution.fetch vid
  | none => Resolution.failure "invalid youtube url, no video id"

/-- `get_video_info` (source lines 43-56): URL-parse failure routes the whole
input string to the fetch; host `youtu.be` routes to the short-URL arm;
anything else to the full-URL arm. -/
def get_video_info (value : String) : Resolution :=
  match Url.parse value with
  | none => Resolution.fetch value
  | some u =>
    if u.host = some "youtu.be" then
      get_video_info_from_short_url u
    else
      get_video_info_from_url u

/-- The per-entry body of the format loop (source lines 144-172): decode the
entry, require an `itag` that parses as `i32` and is known to the catalog,
then build the `Format`: the synthetic `rtmp` marker is written first when
`conn` starts with `rtmp`, and every decoded pair of the entry is inserted
afterwards (so an `rtmp` key carried by the entry wins). `HashMap` iteration
order is immaterial here because `meta` lookups take the last write, so the
copy loop is modelled by appending the decoded pairs. Skips are `none`. -/
def mkFormat (catalog : Int → Option (String × String)) (entry : String) : Option Format :=
  let query := parse_query entry
  match mapGet query "itag" with
  | none => none
  | some itagStr =>
    match parseI32 itagStr with
    | none => none
    | some i =>
      match Format.new catalog i with
      | none => none
      | some f =>
        let f1 := if startsWithChars "rtmp".data ((mapGet query "conn").getD "").data then
            { f with meta := f.meta ++ [("rtmp", "true")] }
          else f
        some { f1 with meta := f1.meta ++ query }

/-- The format loop itself (source lines 143-173): entries whose `mkFormat`
step skips contribute nothing; the rest are pushed in entry order. -/
def assembleFormats (catalog : Int → Option (String × String)) : List String → List Format
  | [] => []
  | v :: rest =>
    match mkFormat catalog v with
    | some f => f :: assembleFormats catalog rest
    | none => assembleFormats catalog rest

/-- Comma-splitting of an optional top-level list value: an absent key
contributes no entries (source lines 134-141). -/
def optSplit : Option String → List String
  | some s => splitCommas s
  | none => []

/-- `get_video_info_from_html` (source lines 79-177) from the decoded HTTP
response onward; the request construction and transport are external. Two
source statements are discarded-value no-ops and therefore have no effect
here: line 86 builds `Err("video info response invalid status code")` without
returning it when `resp.status != 200`, and lines 96-102 format the message
`Error {errorcode}:{reason}` without returning it when the status value is
`"fail"`; in both cases execution continues. -/
def get_video_info_from_html (catalog : Int → Option (String × String))
    (resp : HttpResponse) : Except String VideoInfo :=
  let info := parse_query resp.body
  match mapGet info "status" with
  | none => Except.error "get video info, status not found"
  | some _s =>
    Except.ok
      { title := (mapGet info "title").getD ""
        id := ""
        describe := ""
        formats := assembleFormats catalog
          (optSplit (mapGet info "url_encoded_fmt_stream_map") ++
            optSplit (mapGet info "adaptive_fmts"))
        keywords := match mapGet info "keywords" with
          | some ks => splitCommas ks
          | none => []
        author := (mapGet info "author").getD ""
        duration := match mapGet info "length_seconds" with
          | some l => (parseI32 l).getD 0
          | none => 0 }

/-- `get_download_url` (source lines 24-31): look up the `url` attribute
(absence is the error case), percent-decode it, parse the result as a URL. -/
def get_download_url (f : Format) : Except String Url :=
  match mapGet f.meta "url" with
  | none => Except.error "no media URL on format"
  | some s =>
    match Url.parse (percentDecodeStr s) with
    | none => Except.error "malformed media URL after decoding"
    | some u => Except.ok u

/-- Whether an `Except` result is a success. -/
def isOkB : Except String VideoInfo → Bool
  | Except.ok _ => true
  | Except.error _ => false

/-- A concrete catalog for witnesses: itag 18 is known, everything else is
unknown. -/
def testCatalog : Int → Option (String × String) :=
  fun i => if i = 18 then some ("360p", "mp4") else none

example : Url.parse "https://youtu.be/" =
    some { scheme := "https", host := some "youtu.be", path := "/", query := none } := by
  decide

example : Url.parse "https://www.youtube.com/watch?v=abc123" =
    some { scheme := "https", host := some "www.youtube.com", path := "/watch",
           query := some "v=abc123" } := by
  decide

example : Url.parse "abc123" = none := by decide

example : parse_query "status=fail&errorcode=2&reason=Bad" =
    [("status", "fail"), ("errorcode", "2"), ("reason", "Bad")] := by decide

example : parse_query "itag=18&conn=rtmp_flash&url=https%3A%2F%2Fx.test%2Fv" =
    [("itag", "18"), ("conn", "rtmp_flash"), ("url", "https://x.test/v")] := by decide

example : get_video_info "abc123" = Resolution.fetch "abc123" := by decide

example : mkFormat testCatalog "itag=18&conn=rtmp_flash&url=https%3A%2F%2Fx.test%2Fv" =
    some { itag := 18, resolution := "360p", extension := "mp4",
           meta := [("rtmp", "true"), ("itag", "18"), ("conn", "rtmp_flash"),
                    ("url", "https://x.test/v")] } := by decide

example : parseI32 "18" = some 18 := by decide

example : parseI32 "xx" = none := by decide

/-- Last-write-wins lookup distributes over append: the right-hand list is
consulted first. -/
theorem mapGet_append (a b : List (String × String)) (k : String) :
    mapGet (a ++ b) k = match mapGet b k with
      | some v => some v
      | none => mapGet a k := by
  induction a with
  | nil =>
    cases h : mapGet b k <;> simp [h, mapGet]
  | cons p rest ih =>
    obtain ⟨k1, v1⟩ := p
    have hcons : mapGet (((k1, v1) :: rest) ++ b) k =
        match mapGet (rest ++ b) k with
        | some v => some v
        | none => if k1 == k then some v1 else none := rfl
    rw [hcons, ih]
    cases h : mapGet b k <;> rfl

/-- The format loop is `List.filterMap` of the per-entry step. -/
theorem assembleFormats_eq_filterMap (catalog : Int → Option (String × String))
    (l : List String) :
    assembleFormats catalog l = l.filterMap (mkFormat catalog) := by
  induction l with
  | nil => rfl
  | cons v rest ih =>
    simp only [assembleFormats, List.filterMap_cons]
    cases h : mkFormat catalog v <;> simp [h, ih]

/-- C1: counter to the claim, a decoded response whose `status` value is
`fail` does not abort metadata extraction. The source (lines 96-102) formats
the message combining `errorcode` and `reason` but never returns it, so the
call continues and succeeds; on the body `status=fail&errorcode=2&reason=Bad`
it returns an ordinary (empty) `VideoInfo`. -/
theorem status_fail_not_fatal :
    get_video_info_from_html (fun _ => none) ⟨200, "status=fail&errorcode=2&reason=Bad"⟩ =
      Except.ok { title := "", id := "", describe := "", formats := [], keywords := [],
                  author := "", duration := 0 } := rfl

/-- C2: counter to the claim, the short-URL resolver does not produce the
explicit error on an empty stripped path: the source branch (lines 70-77)
reaches the end of the function with no return expression and no error value
at all, modelled as `Resolution.noValue`. -/
theorem short_url_empty_path_no_error :
    get_video_info "https://youtu.be/" = Resolution.noValue := by decide

/-- C3: counter to the claim, a non-success HTTP status does not make the
metadata fetch return an error. The source (lines 85-87) builds
`Err("video info response invalid status code")` without returning it, so the
body is read and parsed anyway: with status 404 the call still succeeds and
extracts the title from the body. -/
theorem bad_status_code_not_fatal :
    get_video_info_from_html (fun _ => none) ⟨404, "status=ok&title=T"⟩ =
      Except.ok { title := "T", id := "", describe := "", formats := [], keywords := [],
                  author := "", duration := 0 } := rfl

/-- C4: for an input parsing as an absolute URL whose host is not the
short-link domain, the resolver uses the `v` query parameter (HashMap
last-write-wins lookup over the decoded query pairs) as the identifier when
present, and produces the `invalid youtube url, no video id` error when it is
absent. -/
theorem full_url_uses_v_param :
    ∀ (s : String) (u : Url), Url.parse s = some u → ¬u.host = some "youtu.be" →
      (∀ vid, mapGet (parse_query (u.query.getD "")) "v" = some vid →
        get_video_info s = Resolution.fetch vid) ∧
      (mapGet (parse_query (u.query.getD "")) "v" = none →
        get_video_info s = Resolution.failure "invalid youtube url, no video id") := by
  intro s u hp hh
  constructor
  · intro vid hv
    simp [get_video_info, hp, hh, get_video_info_from_url, hv]
  · intro hv
    simp [get_video_info, hp, hh, get_video_info_from_url, hv]

/-- Witness for C4 at `https://www.youtube.com/watch?v=abc123`. -/
theorem full_url_uses_v_param_witness :
    get_video_info "https://www.youtube.com/watch?v=abc123" = Resolution.fetch "abc123" :=
  (full_url_uses_v_param "https://www.youtube.com/watch?v=abc123"
      { scheme := "https", host := some "www.youtube.com", path := "/watch",
        query := some "v=abc123" }
      (by decide) (by decide)).1 "abc123" (by decide)

/-- C5: for an input parsing as an absolute URL with host `youtu.be` whose
path is non-empty after stripping leading slashes, the resolved identifier is
exactly the stripped path. -/
theorem short_url_path_is_identifier :
    ∀ (s : String) (u : Url), Url.parse s = some u → u.host = some "youtu.be" →
      0 < (trimStartSlashes u.path).data.length →
      get_video_info s = Resolution.fetch (trimStartSlashes u.path) := by
  intro s u hp hh hl
  have hl' : (trimStartSlashes u.path).length ≠ 0 := by
    have h0 : 0 < (trimStartSlashes u.path).length := hl
    omega
  simp [get_video_info, hp, hh, get_video_info_from_short_url, hl']

/-- Witness for C5 at `https://youtu.be/abc123`. -/
theorem short_url_path_is_identifier_witness :
    get_video_info "https://youtu.be/abc123" = Resolution.fetch "abc123" :=
  short_url_path_is_identifier "https://youtu.be/abc123"
    { scheme := "https", host := some "youtu.be", path := "/abc123", query := none }
    (by decide) (by decide) (by decide)

/-- C6: the Format Assembler skip rules. An entry with no `itag` key, an
entry whose `itag` does not parse as `i32`, and an entry whose itag the
catalog does not know each produce no `Format`; such an entry contributes
nothing to the assembled sequence wherever it appears; and none of these
conditions makes the overall extraction call fail (given the `status` key is
present, the call succeeds regardless of the entries). -/
theorem format_entry_skip_rules :
    (∀ (catalog : Int → Option (String × String)) (e : String),
      mapGet (parse_query e) "itag" = none → mkFormat catalog e = none) ∧
    (∀ (catalog : Int → Option (String × String)) (e t : String),
      mapGet (parse_query e) "itag" = some t → parseI32 t = none →
        mkFormat catalog e = none) ∧
    (∀ (catalog : Int → Option (String × String)) (e t : String) (i : Int),
      mapGet (parse_query e) "itag" = some t → parseI32 t = some i → catalog i = none →
        mkFormat catalog e = none) ∧
    (∀ (catalog : Int → Option (String × String)) (l1 l2 : List String) (e : String),
      mkFormat catalog e = none →
        assembleFormats catalog (l1 ++ e :: l2) = assembleFormats catalog (l1 ++ l2)) ∧
    (∀ (catalog : Int → Option (String × String)) (resp : HttpResponse),
      (mapGet (parse_query resp.body) "status").isSome = true →
        isOkB (get_video_info_from_html catalog resp) = true) := by
  refine ⟨?_, ?_, ?_, ?_, ?_⟩
  · intro catalog e h
    simp [mkFormat, h]
  · intro catalog e t h1 h2
    simp [mkFormat, h1, h2]
  · intro catalog e t i h1 h2 h3
    simp [mkFormat, h1, h2, Format.new, h3]
  · intro catalog l1 l2 e h
    simp [assembleFormats_eq_filterMap, List.filterMap_append, List.filterMap_cons, h]
  · intro catalog resp h
    cases hs : mapGet (parse_query resp.body) "status" with
    | none => rw [hs] at h; simp at h
    | some s => simp [get_video_info_from_html, hs, isOkB]

/-- Witness for C6: a keyless entry, a non-numeric itag, and itag 99 (unknown
to `testCatalog`) are each skipped; a skipped entry is dropped from the
sequence; and a call whose response carries a `status` key succeeds even
though its only entry is skipped. -/
theorem format_entry_skip_rules_witness :
    mkFormat testCatalog "quality=hd" = none ∧
    mkFormat testCatalog "itag=xx" = none ∧
    mkFormat testCatalog "itag=99" = none ∧
    assembleFormats testCatalog (["itag=18"] ++ "itag=99" :: []) =
      assembleFormats testCatalog (["itag=18"] ++ []) ∧
    isOkB (get_video_info_from_html testCatalog ⟨200, "status=ok&adaptive_fmts=itag=99"⟩) =
      true :=
  ⟨format_entry_skip_rules.1 testCatalog "quality=hd" (by decide),
   format_entry_skip_rules.2.1 testCatalog "itag=xx" "xx" (by decide) (by decide),
   format_entry_skip_rules.2.2.1 testCatalog "itag=99" "99" 99 (by decide) (by decide)
     (by decide),
   format_entry_skip_rules.2.2.2.1 testCatalog ["itag=18"] [] "itag=99" (by decide),
   format_entry_skip_rules.2.2.2.2 testCatalog ⟨200, "status=ok&adaptive_fmts=itag=99"⟩
     (by decide)⟩

/-- C7: when an entry's decoded `conn` value starts with `rtmp`, the
assembled Format's attribute map binds `rtmp` to the entry's own `rtmp` value
when the entry carries that key (last write wins over the synthetic marker)
and to the truthy marker `"true"` otherwise; when `conn` is absent or lacks
the prefix, the map's `rtmp` binding is exactly whatever the entry itself
carried (no synthetic key is added). -/
theorem rtmp_synthetic_attribute :
    ∀ (catalog : Int → Option (String × String)) (e : String) (f : Format),
      mkFormat catalog e = some f →
        (startsWithChars "rtmp".data ((mapGet (parse_query e) "conn").getD "").data = true →
          mapGet f.meta "rtmp" = some ((mapGet (parse_query e) "rtmp").getD "true")) ∧
        (startsWithChars "rtmp".data ((mapGet (parse_query e) "conn").getD "").data = false →
          mapGet f.meta "rtmp" = mapGet (parse_query e) "rtmp") := by
  intro catalog e f h
  cases h1 : mapGet (parse_query e) "itag" with
  | none => simp [mkFormat, h1] at h
  | some t =>
    cases h2 : parseI32 t with
    | none => simp [mkFormat, h1, h2] at h
    | some i =>
      cases h3 : catalog i with
      | none => simp [mkFormat, h1, h2, Format.new, h3] at h
      | some d =>
        cases hc : startsWithChars "rtmp".data ((mapGet (parse_query e) "conn").getD "").data with
        | true =>
          simp only [mkFormat, h1, h2, Format.new, h3, Option.map_some', hc, if_true,
            Option.some.injEq] at h
          constructor
          · intro _
            rw [← h]
            rw [show (({ itag := i, resolution := d.1, extension := d.2, meta := [] } :
                Format).meta ++ [("rtmp", "true")] ++ parse_query e) =
                ([("rtmp", "true")] ++ parse_query e) from rfl]
            rw [mapGet_append]
            cases h4 : mapGet (parse_query e) "rtmp" <;> simp [h4, mapGet]
          · intro hfalse
            simp at hfalse
        | false =>
          simp only [mkFormat, h1, h2, Format.new, h3, Option.map_some', hc,
            Bool.false_eq_true, if_false, Option.some.injEq] at h
          constructor
          · intro htrue
            simp at htrue
          · intro _
            rw [← h]
            simp [mapGet]

/-- Witness for C7: on the spec's example entry
`itag=18&conn=rtmp_flash&url=https%3A%2F%2Fx.test%2Fv` the assembled Format
carries the synthetic truthy `rtmp` marker. -/
theorem rtmp_synthetic_attribute_witness :
    mapGet ({ itag := 18, resolution := "360p", extension := "mp4",
              meta := [("rtmp", "true"), ("itag", "18"), ("conn", "rtmp_flash"),
                       ("url", "https://x.test/v")] } : Format).meta "rtmp" =
      some ((mapGet
        (parse_query "itag=18&conn=rtmp_flash&url=https%3A%2F%2Fx.test%2Fv") "rtmp").getD
          "true") :=
  (rtmp_synthetic_attribute testCatalog "itag=18&conn=rtmp_flash&url=https%3A%2F%2Fx.test%2Fv"
      { itag := 18, resolution := "360p", extension := "mp4",
        meta := [("rtmp", "true"), ("itag", "18"), ("conn", "rtmp_flash"),
                 ("url", "https://x.test/v")] }
      (by decide)).1 (by decide)

/-- C8: the assembled Format sequence of a successful call is exactly the
per-entry step filter-mapped, in order, over the comma-split combined-stream
list followed by the comma-split adaptive-stream list, each list key being
optional and contributing nothing when absent. -/
theorem formats_follow_entry_order :
    ∀ (catalog : Int → Option (String × String)) (resp : HttpResponse) (vi : VideoInfo),
      get_video_info_from_html catalog resp = Except.ok vi →
        vi.formats =
          (optSplit (mapGet (parse_query resp.body) "url_encoded_fmt_stream_map") ++
            optSplit (mapGet (parse_query resp.body) "adaptive_fmts")).filterMap
              (mkFormat catalog) := by
  intro catalog resp vi h
  cases hs : mapGet (parse_query resp.body) "status" with
  | none => simp [get_video_info_from_html, hs] at h
  | some s =>
    simp only [get_video_info_from_html, hs, Except.ok.injEq] at h
    rw [← h]
    exact assembleFormats_eq_filterMap catalog _

/-- Witness for C8: both list keys present, the combined list contributing a
known and an unknown itag and the adaptive list a known one; the resulting
sequence is the known combined entry followed by the adaptive entry. -/
theorem formats_follow_entry_order_witness :
    ({ title := "", id := "", describe := "",
       formats := [{ itag := 18, resolution := "360p", extension := "mp4",
                     meta := [("itag", "18")] },
                   { itag := 18, resolution := "360p", extension := "mp4",
                     meta := [("itag", "18")] }],
       keywords := [], author := "", duration := 0 } : VideoInfo).formats =
      (optSplit (mapGet
          (parse_query
            "status=ok&url_encoded_fmt_stream_map=itag=18,itag=99&adaptive_fmts=itag=18")
          "url_encoded_fmt_stream_map") ++
        optSplit (mapGet
          (parse_query
            "status=ok&url_encoded_fmt_stream_map=itag=18,itag=99&adaptive_fmts=itag=18")
          "adaptive_fmts")).filterMap (mkFormat testCatalog) :=
  formats_follow_entry_order testCatalog
    ⟨200, "status=ok&url_encoded_fmt_stream_map=itag=18,itag=99&adaptive_fmts=itag=18"⟩
    { title := "", id := "", describe := "",
      formats := [{ itag := 18, resolution := "360p", extension := "mp4",
                    meta := [("itag", "18")] },
                  { itag := 18, resolution := "360p", extension := "mp4",
                    meta := [("itag", "18")] }],
      keywords := [], author := "", duration := 0 }
    (by rfl)

/-- C9: the Download URL Resolver fails when the Format carries no `url`
attribute; otherwise it percent-decodes the value and parses the result,
failing exactly when the decoded text does not parse as an absolute URL and
returning the parsed URL otherwise (a pure local computation). On the value
`https%3A%2F%2Fx.test%2Fv` it returns `https://x.test/v`. -/
theorem download_url_resolution :
    ∀ f : Format,
      (mapGet f.meta "url" = none →
        get_download_url f = Except.error "no media URL on format") ∧
      (∀ s, mapGet f.meta "url" = some s → Url.parse (percentDecodeStr s) = none →
        get_download_url f = Except.error "malformed media URL after decoding") ∧
      (∀ s u, mapGet f.meta "url" = some s → Url.parse (percentDecodeStr s) = some u →
        get_download_url f = Except.ok u) ∧
      (mapGet f.meta "url" = some "https%3A%2F%2Fx.test%2Fv" →
        get_download_url f =
          Except.ok { scheme := "https", host := some "x.test", path := "/v",
                      query := none }) := by
  intro f
  refine ⟨?_, ?_, ?_, ?_⟩
  · intro h
    simp [get_download_url, h]
  · intro s h1 h2
    simp [get_download_url, h1, h2]
  · intro s u h1 h2
    simp [get_download_url, h1, h2]
  · intro h
    simp only [get_download_url, h]
    rfl

/-- Witness for C9: a Format whose `url` attribute is the doubly-encoded
`https%3A%2F%2Fx.test%2Fv` resolves to `https://x.test/v`. -/
theorem download_url_resolution_witness :
    get_download_url { itag := 18, resolution := "360p", extension := "mp4",
                       meta := [("url", "https%3A%2F%2Fx.test%2Fv")] } =
      Except.ok { scheme := "https", host := some "x.test", path := "/v", query := none } :=
  (download_url_resolution
      { itag := 18, resolution := "360p", extension := "mp4",
        meta := [("url", "https%3A%2F%2Fx.test%2Fv")] }).2.2.2 (by decide)

/-- C10: the `id` field of every successfully returned `VideoInfo` is the
empty string: no path of `get_video_info_from_html` ever assigns it, so it
keeps its default. -/
theorem video_info_id_always_empty :
    ∀ (catalog : Int → Option (String × String)) (resp : HttpResponse) (vi : VideoInfo),
      get_video_info_from_html catalog resp = Except.ok vi → vi.id = "" := by
  intro catalog resp vi h
  cases hs : mapGet (parse_query resp.body) "status" with
  | none => simp [get_video_info_from_html, hs] at h
  | some s =>
    simp only [get_video_info_from_html, hs, Except.ok.injEq] at h
    rw [← h]

/-- Witness for C10 on a minimal successful response. -/
theorem video_info_id_always_empty_witness :
    ({ title := "", id := "", describe := "", formats := [], keywords := [],
       author := "", duration := 0 } : VideoInfo).id = "" :=
  video_info_id_always_empty (fun _ => none) ⟨200, "status=ok"⟩
    { title := "", id := "", describe := "", formats := [], keywords := [],
      author := "", duration := 0 } (by rfl)
